import Mathlib

/-!
Shallow embedding of the ringbuf crate (HyeonuPark/ringbuf) for checking its
natural-language specification.

Counters (`src/counter/mod.rs`, `src/counter/counter.rs`, `src/counter/atomic.rs`)
are pointer-sized machine words; we model `usize` as `Nat` taken modulo `2 ^ 64`
(the 64-bit target) and `isize` as the balanced residue in `[-2^63, 2^63)`.
A `Counter` is modelled by its raw `usize` representation: the logical value is
shifted left by one, the LSB is the closed flag, the two reserved MSBs give the
wrap-safe circular order.

The repository snapshot contains two revisions of the counter module.
`src/counter/counter.rs` computes the word width in bits
(`WORD = size_of::<usize>() * 8`); `src/counter/mod.rs` computes
`WORD = size_of::<usize>()`, which is the width in *bytes* (8), and its
`Sub<Counter>` impl subtracts the raw (shifted) representations without
rescaling.  Both revisions are embedded below, the `modrs`-suffixed
definitions being the ones from `src/counter/mod.rs`.
-/

namespace Ringbuf

/-- The modulus of `usize` arithmetic on the modelled 64-bit target. -/
def USIZE : Nat := 2 ^ 64

/-- `usize as isize`: reinterpret a raw machine word as a signed value. -/
def isizeOfBits (x : Nat) : Int :=
  if x % USIZE < 2 ^ 63 then ((x % USIZE : Nat) : Int) else ((x % USIZE : Nat) : Int) - (USIZE : Int)

/-- Signed wrapping: `wrapIsize x` is the unique representative of `x` modulo `2^64`
lying in `[-2^63, 2^63)`; this is the result of a sequence of `isize` wrapping ops. -/
def wrapIsize (x : Int) : Int := (x + 2 ^ 63) % (USIZE : Int) - 2 ^ 63

/-- `a.wrapping_sub(b)` on `usize`. -/
def usizeWrapSub (a b : Nat) : Nat := (a % USIZE + (USIZE - b % USIZE)) % USIZE

/-- src/counter/counter.rs line 42: `WORD = size_of::<usize>() * 8`, the word width in bits. -/
def WORD : Nat := 64

/-- src/counter/counter.rs line 43: `MSB = 0b11 << (WORD - 2)`, mask of the top two bits. -/
def MSB : Nat := 3 <<< 62

/-- src/counter/counter.rs line 39: `COUNTER_VALID_RANGE = 1 << (WORD - 3)`. -/
def COUNTER_VALID_RANGE : Nat := 1 <<< 61

/-- src/counter/counter.rs line 40: `COUNTER_FULL_RANGE: isize = 1 << (WORD - 1)`;
as a signed word the bit pattern `2^63` denotes `-2^63`. -/
def COUNTER_FULL_RANGE : Int := isizeOfBits (1 <<< 63)

/-- src/counter/counter.rs lines 45-47: `msb_pp` — both reserved MSBs are set. -/
def msbPP (v : Nat) : Bool := v &&& MSB == MSB

/-- src/counter/counter.rs lines 49-51: `msb_nn` — both reserved MSBs are clear. -/
def msbNN (v : Nat) : Bool := v &&& MSB == 0

/-- src/counter/mod.rs line 47: `WORD = ::std::mem::size_of::<usize>()`,
which is the size in bytes, i.e. `8`. -/
def WORDmodrs : Nat := 8

/-- src/counter/mod.rs line 50: `MSB = 0b11 << (WORD - 2)` with the byte-count
word size, i.e. `0b11 << 6 = 0xC0`. -/
def MSBmodrs : Nat := 3 <<< 6

/-- src/counter/mod.rs lines 60-62: `msb_pp` with the mod.rs mask. -/
def msbPPmodrs (v : Nat) : Bool := v &&& MSBmodrs == MSBmodrs

/-- src/counter/mod.rs lines 64-66: `msb_nn` with the mod.rs mask. -/
def msbNNmodrs (v : Nat) : Bool := v &&& MSBmodrs == 0

/-- `Counter::new(init)`: stores `init << 1` (identical in both revisions). -/
def counterNew (init : Nat) : Nat := (init <<< 1) % USIZE

/-- `impl Add<usize> for Counter` (src/counter/mod.rs lines 123-129 and
src/counter/counter.rs lines 121-127, identical):
`Counter(self.0.wrapping_add(rhs << 1))`. -/
def counterAdd (a : Nat) (rhs : Nat) : Nat := (a % USIZE + (rhs <<< 1) % USIZE) % USIZE

/-- `PartialOrd::partial_cmp` on `usize` values (std total order). -/
def usizeCmp (a b : Nat) : Ordering :=
  if a < b then .lt else if b < a then .gt else .eq

/-- `impl PartialOrd for Counter` (src/counter/mod.rs lines 97-107 and
src/counter/counter.rs lines 94-104, identical code), with the
`counter.rs` constants (`MSB` masks the top two bits of the 64-bit word):
`00` beats `11`, `11` loses to `00`, otherwise raw comparison. -/
def counterCmp (a b : Nat) : Ordering :=
  if msbNN a && msbPP b then .gt
  else if msbPP a && msbNN b then .lt
  else usizeCmp a b

/-- The same `partial_cmp` code interpreted with the `src/counter/mod.rs`
constants, where `MSB = 0xC0` masks bits 6 and 7. -/
def counterCmpModrs (a b : Nat) : Ordering :=
  if msbNNmodrs a && msbPPmodrs b then .gt
  else if msbPPmodrs a && msbNNmodrs b then .lt
  else usizeCmp a b

/-- Rust `a >= b` via `PartialOrd`: `partial_cmp` is `Greater` or `Equal`.
For counters `partial_cmp` is total, so this is `cmp ≠ lt`. -/
def counterGe (a b : Nat) : Bool := counterCmp a b != Ordering.lt

/-- `impl Sub<Counter> for Counter`, src/counter/counter.rs lines 106-119:
shift both raws right by one, subtract as `isize`, and in the one-wrap case
add `COUNTER_FULL_RANGE` with wrapping. -/
def counterSub (a b : Nat) : Int :=
  let this : Int := (a % USIZE) >>> 1
  let that : Int := (b % USIZE) >>> 1
  if (msbNN a && msbPP b) || (msbPP a && msbNN b) then
    wrapIsize (wrapIsize (this - that) + COUNTER_FULL_RANGE)
  else this - that

/-- `impl Sub<Counter> for Counter`, src/counter/mod.rs lines 109-121:
subtracts the raw (shifted) representations directly, without the `>> 1`
rescale, using `rhs - self` in the first wrap branch. -/
def counterSubModrs (a b : Nat) : Int :=
  if msbNNmodrs a && msbPPmodrs b then
    isizeOfBits (usizeWrapSub b a)
  else if msbPPmodrs a && msbNNmodrs b then
    - isizeOfBits (usizeWrapSub b a)
  else
    isizeOfBits (usizeWrapSub a b)

/-- The comparison clause of spec section 4.4 / claim C3, written exactly as the
spec words it: `a < b` iff (i) both counters share the top-two-bit pattern and
the raw representation of `a` is smaller, or (ii) they are one wrap apart with
`a` carrying pattern `11` and `b` pattern `00`. -/
def counterLtAsSpecified (a b : Nat) : Prop :=
  (a >>> 62 = b >>> 62 ∧ a < b) ∨ (a >>> 62 = 3 ∧ b >>> 62 = 0)

/-- Rust `usize::is_power_of_two`, modelled by its standard-library contract:
exactly one bit of the 64-bit word is set, i.e. the value is `2 ^ k` for some
`k < 64`. -/
def isPowerOfTwoRust (n : Nat) : Bool := (List.range 64).any fun k => n == 2 ^ k

/-- src/ringbuf.rs lines 15-22, `RingBuf::new`: the only capacity validation is
`assert!(capacity.is_power_of_two())`. `true` means the assertion passes. -/
def ringBufNewAccepts (capacity : Nat) : Bool := isPowerOfTwoRust capacity

/-- src/buffer.rs lines 43-46, `Buffer::new`: validates
`assert!(capacity.is_power_of_two())` and `assert_ne!(capacity << 2, 0)`
(the shift wraps modulo `2^64`). `true` means both assertions pass. -/
def bufferNewAccepts (capacity : Nat) : Bool :=
  isPowerOfTwoRust capacity && (capacity <<< 2) % USIZE != 0

/-!
`AtomicCounter` (src/counter/atomic.rs) is modelled by the raw word it stores.
The channel code (src/channel) closes a channel through the `is_closed` flag of
the head, never through the counters, so in the sequential model below the
counters stay even (non-closed) unless stated otherwise.
-/

/-- src/counter/atomic.rs lines 19-25, `make`: a raw word denotes a live counter
iff its LSB (the closed flag) is clear. -/
def makeCounter (v : Nat) : Option Nat := if v % 2 = 0 then some v else none

/-- src/counter/atomic.rs lines 48-51, `AtomicCounter::incr`:
`fetch_add(0b10)`; returns the previous word through `make` together with the
new stored word. -/
def atomicIncr (v : Nat) : Option Nat × Nat := (makeCounter v, (v + 2) % USIZE)

/-- Result of `AtomicCounter::comp_swap` (src/counter/atomic.rs lines 57-67)
paired with the new stored word: `Ok(())` and the swapped-in value on success,
otherwise `Err(make(prev))` with the store untouched. -/
def atomicCompSwap (v cond value : Nat) : Except (Option Nat) Unit × Nat :=
  if v = cond then (.ok (), value) else (.error (makeCounter v), v)

/-- `counter + 1usize` on the raw representation: `wrapping_add(1 << 1)`. -/
def counterAddOne (k : Nat) : Nat := (k + 2) % USIZE

/-- After `Shared::claim` has fetched `claimed = k`, lines 41-46 of
src/sequence/shared.rs refresh the cached limit from the opposite side
when `k >= cache.limit` (counter order). -/
def refreshedLimit (k cacheLimit limitVal : Nat) : Nat :=
  if counterGe k cacheLimit then limitVal else cacheLimit

/-- Outcome of one iteration of the `Shared::claim` retry loop:
either the call returns (`ret`), or the loop continues (`again`);
both record the new `claimed` store and the new cached limit. -/
inductive ClaimStep where
  | ret (res : Option Nat) (claimedStore cacheLimit : Nat)
  | again (claimedStore cacheLimit : Nat)
  deriving Repr, DecidableEq

/-- One iteration of the loop of `Shared::claim`, src/sequence/shared.rs
lines 40-61.  `k` is the counter obtained from `claimed.incr()`,
`cacheLimit` the cached limit, `limitVal` the value `limit.count()` would
return this iteration, and `claimedStore` the current word of the `claimed`
atomic (other threads may have moved it).  When the (refreshed) limit is
still at or below `k` the code tries to revert by compare-and-swapping
`claimed` from `k + 1` down to `k`: success returns `None`, failure
re-enters the loop. Otherwise the claim returns `Some k`. -/
def sharedClaimLoopStep (k cacheLimit limitVal claimedStore : Nat) : ClaimStep :=
  let limit1 := refreshedLimit k cacheLimit limitVal
  if counterGe k limit1 then
    match atomicCompSwap claimedStore (counterAddOne k) k with
    | (.ok (), store1) => .ret none store1 limit1
    | (.error _, store1) => .again store1 limit1
  else
    .ret (some k) claimedStore limit1

/-- Outcome of one iteration of the `Shared::commit` spin loop. -/
inductive CommitStep where
  | ok (countStore : Nat)
  | again (countStore : Nat)
  | err
  deriving Repr, DecidableEq

/-- One iteration of the loop of `Shared::commit`, src/sequence/shared.rs
lines 64-72: spin on `count.comp_swap(count, count + 1)`; a live mismatch
retries, a closed counter fails with `CommitError`. `k` is the counter being
committed and `countStore` the current word of the `count` atomic. -/
def sharedCommitLoopStep (k countStore : Nat) : CommitStep :=
  match atomicCompSwap countStore k (counterAddOne k) with
  | (.ok (), store1) => .ok store1
  | (.error (some _), store1) => .again store1
  | (.error none, _) => .err

/-- `Shared::claim` run without interference (no other thread touches
`claimed` between the increment and the revert): increment `claimed`,
then run the loop body once.  Returns the claim result, the new `claimed`
store, and the new cached limit.  The `again` fallback is unreachable in
this interference-free run (see `shared_claim_loop_no_retry`). -/
def sharedClaimSeq (claimedStore cacheLimit limitVal : Nat) :
    Option Nat × Nat × Nat :=
  match atomicIncr claimedStore with
  | (none, store1) => (none, store1, cacheLimit)
  | (some k, store1) =>
    match sharedClaimLoopStep k cacheLimit limitVal store1 with
    | .ret res store2 limit1 => (res, store2, limit1)
    | .again store2 limit1 => (none, store2, limit1)

/-- `Owned::claim`, src/sequence/owned.rs lines 41-57: refresh the cached
limit when the cached count has reached it; fail with `None` when the count
still equals the limit, otherwise claim the cached count and advance the
cache by one.  Returns (result, new cached count, new cached limit). -/
def ownedClaim (cacheCount cacheLimit limitVal : Nat) : Option Nat × Nat × Nat :=
  let limit1 := if cacheCount = cacheLimit then limitVal else cacheLimit
  if cacheCount = limit1 then (none, cacheCount, limit1)
  else (some cacheCount, counterAddOne cacheCount, limit1)

/-- `Sender::is_closed` (src/channel/sender.rs lines 68-82): consult the
per-endpoint cached flag first; on a fresh `true` observation of
`head.is_closed` record it in the cache.  Returns (result, new cache). -/
def senderIsClosed (cache headClosed : Bool) : Bool × Bool :=
  if cache then (true, cache)
  else if headClosed then (true, true)
  else (false, cache)

/-- `Receiver::is_closed` (src/channel/receiver.rs lines 63-77): same
structure as the sender side. -/
def receiverIsClosed (cache headClosed : Bool) : Bool × Bool :=
  if cache then (true, cache)
  else if headClosed then (true, true)
  else (false, cache)

/-- Ring-slot index of a counter: `Counter & mask` is `(raw >> 1) & mask`
(src/counter BitAnd impls), with `mask = capacity - 1`. -/
def slotIndex (k capacity : Nat) : Nat := (k >>> 1) &&& (capacity - 1)

/-- `ReceiveError` (src/channel/receiver.rs lines 25-26): receive can fail
only because the buffer is empty. -/
inductive ReceiveError where
  | empty
  deriving Repr, DecidableEq

/-- `SendErrorKind` (src/channel/sender.rs lines 32-39). -/
inductive SendErrorKind where
  | bufferFull
  | receiverAllClosed
  deriving Repr, DecidableEq

/-- `SendError` (src/channel/sender.rs lines 22-29): failure reason plus the
message that was being sent. -/
structure SendError (T : Type) where
  kind : SendErrorKind
  payload : T
  deriving Repr, DecidableEq

/-- Sequential state of a `channel::<Owned, Owned>` endpoint pair
(src/channel): the two sequence counters, the receiver-side cache, the head
closed flag, the receiver's cached closed flag, the capacity and the slots. -/
structure SpscState (T : Type) where
  sendCount : Nat
  recvCount : Nat
  recvCacheCount : Nat
  recvCacheLimit : Nat
  capacity : Nat
  headClosed : Bool
  recvClosedCache : Bool
  buf : Nat → T

/-- `Receiver::try_recv`, src/channel/receiver.rs lines 80-99, for an
`Owned` receiver sequence: claim against `SentLimit` (the sender's count);
on `None` report `Ok(None)` if the channel is closed and `Err` otherwise; on
`Some(index)` read the slot, commit (`count.incr()`, src/sequence/owned.rs
lines 59-68) and return the message. -/
def tryRecv {T : Type} (s : SpscState T) : Except ReceiveError (Option T) × SpscState T :=
  match ownedClaim s.recvCacheCount s.recvCacheLimit s.sendCount with
  | (none, cacheCount1, cacheLimit1) =>
    let closed := receiverIsClosed s.recvClosedCache s.headClosed
    if closed.1 then
      (.ok none, { s with recvCacheCount := cacheCount1, recvCacheLimit := cacheLimit1,
                          recvClosedCache := closed.2 })
    else
      (.error .empty, { s with recvCacheCount := cacheCount1, recvCacheLimit := cacheLimit1,
                               recvClosedCache := closed.2 })
  | (some k, cacheCount1, cacheLimit1) =>
    let msg := s.buf (slotIndex k s.capacity)
    (.ok (some msg), { s with recvCacheCount := cacheCount1, recvCacheLimit := cacheLimit1,
                              recvCount := counterAddOne s.recvCount })

/-- Sequential state of the sender half of a `channel::<Owned, _>` channel. -/
structure SpscSendState (T : Type) where
  sendCount : Nat
  recvCount : Nat
  sendCacheCount : Nat
  sendCacheLimit : Nat
  capacity : Nat
  headClosed : Bool
  sendClosedCache : Bool
  buf : Nat → T

/-- `Sender::try_send`, src/channel/sender.rs lines 85-108, for an `Owned`
sender sequence: a closed channel fails with `ReceiverAllClosed` carrying the
message; a failed claim against `UnusedLimit` (receiver count plus capacity)
fails with `BufferFull` carrying the message; otherwise write the slot, commit
(`count.incr()`) and succeed. -/
def trySendOwned {T : Type} (s : SpscSendState T) (msg : T) :
    Except (SendError T) Unit × SpscSendState T :=
  let closed := senderIsClosed s.sendClosedCache s.headClosed
  if closed.1 then
    (.error ⟨.receiverAllClosed, msg⟩, { s with sendClosedCache := closed.2 })
  else
    let limitVal := counterAdd s.recvCount s.capacity
    match ownedClaim s.sendCacheCount s.sendCacheLimit limitVal with
    | (none, cacheCount1, cacheLimit1) =>
      (.error ⟨.bufferFull, msg⟩,
        { s with sendClosedCache := closed.2, sendCacheCount := cacheCount1,
                 sendCacheLimit := cacheLimit1 })
    | (some k, cacheCount1, cacheLimit1) =>
      (.ok (),
        { s with sendClosedCache := closed.2, sendCacheCount := cacheCount1,
                 sendCacheLimit := cacheLimit1,
                 buf := Function.update s.buf (slotIndex k s.capacity) msg,
                 sendCount := counterAddOne s.sendCount })

/-- Sequential state of the sender half of a `channel::<Shared, _>` channel:
the `Shared` sequence stores a `claimed` counter next to `count`
(src/sequence/shared.rs lines 7-11), and the per-endpoint cache holds only
the limit (lines 13-16). -/
structure MpscSendState (T : Type) where
  claimed : Nat
  sendCount : Nat
  recvCount : Nat
  sendCacheLimit : Nat
  capacity : Nat
  headClosed : Bool
  sendClosedCache : Bool
  buf : Nat → T

/-- `Sender::try_send` for a `Shared` sender sequence (src/channel/sender.rs
lines 85-108 with src/sequence/shared.rs), run without interference:
`claim` is `sharedClaimSeq`, and `commit` performs one spin of the
compare-and-swap loop on `count` (always conclusive when no other thread
holds an uncommitted claim); the commit result is discarded by the caller. -/
def trySendShared {T : Type} (s : MpscSendState T) (msg : T) :
    Except (SendError T) Unit × MpscSendState T :=
  let closed := senderIsClosed s.sendClosedCache s.headClosed
  if closed.1 then
    (.error ⟨.receiverAllClosed, msg⟩, { s with sendClosedCache := closed.2 })
  else
    let limitVal := counterAdd s.recvCount s.capacity
    match sharedClaimSeq s.claimed s.sendCacheLimit limitVal with
    | (none, claimed1, cacheLimit1) =>
      (.error ⟨.bufferFull, msg⟩,
        { s with sendClosedCache := closed.2, claimed := claimed1,
                 sendCacheLimit := cacheLimit1 })
    | (some k, claimed1, cacheLimit1) =>
      let count1 :=
        match sharedCommitLoopStep k s.sendCount with
        | .ok v => v
        | .again v => v
        | .err => s.sendCount
      (.ok (),
        { s with sendClosedCache := closed.2, claimed := claimed1,
                 sendCacheLimit := cacheLimit1,
                 buf := Function.update s.buf (slotIndex k s.capacity) msg,
                 sendCount := count1 })

/-- Waiter roles (src/scheduler): a parked endpoint is a sender or a receiver. -/
inductive Role where
  | sender
  | receiver
  deriving Repr, DecidableEq

/-- `Queue::push`, src/scheduler/queue.rs lines 65-105, at its linearization
point (tail accurate, `tail.next` null): when the queue is non-empty
(`head != tail`) and the tail's role differs from the node's, the push fails
and hands the node back; otherwise the node is linked at the tail. -/
def queuePush (q : List Role) (r : Role) : Except Role (List Role) :=
  match q.getLast? with
  | some tailRole => if tailRole = r then .ok (q ++ [r]) else .error r
  | none => .ok (q ++ [r])

/-- `Queue::pop`, src/scheduler/queue.rs lines 108-131, at its linearization
point: an empty queue or a first real node of the wrong role yields `None`
and leaves the queue unchanged; otherwise the first node is unlinked and
returned. -/
def queuePop (q : List Role) (r : Role) : Option Role × List Role :=
  match q with
  | [] => (none, [])
  | x :: xs => if x = r then (some x, xs) else (none, x :: xs)

/-- Queue states reachable from the empty waiter queue by `push` and `pop`
(failed pushes leave the state unchanged). -/
inductive QueueReach : List Role → Prop where
  | empty : QueueReach []
  | push (q : List Role) (r : Role) (q1 : List Role) :
      QueueReach q → queuePush q r = .ok q1 → QueueReach q1
  | pop (q : List Role) (r : Role) :
      QueueReach q → QueueReach (queuePop q r).2

/-- All (non-sentinel) nodes of the waiter queue carry the same role. -/
def homogeneous (q : List Role) : Prop := ∀ a ∈ q, ∀ b ∈ q, a = b

/-- Sequential state of a `Chain` handle (src/queue/chain.rs): `caps` lists
the capacities of the segments hanging off the buffer-less head node in
order, `closedTail` tells whether the final successor slot is `Closed`
rather than `Empty`, and `pos` is the handle position (`0` is the head
node, `i + 1` is the segment with capacity `caps[i]`). -/
structure ChainState where
  caps : List Nat
  closedTail : Bool
  pos : Nat
  deriving Repr, DecidableEq

/-- The capacity `Chain::grow` allocates, src/queue/chain.rs line 119:
`self.buf().map_or(1, |buf| buf.capacity() * 2)` — double the current
segment's capacity, or `1` on the buffer-less head node. -/
def growAlloc (s : ChainState) : Nat :=
  match s.pos with
  | 0 => 1
  | i + 1 => 2 * s.caps.getD i 0

/-- `Chain::grow`, src/queue/chain.rs lines 118-135: allocate a segment of
`growAlloc` capacity and `AtomicArc::init` it into the current node's
successor slot (lines 216-232: compare-and-swap null to the new `Arc`).
If the slot already held a successor the race is lost and the handle adopts
the winner; if the slot was `Closed` nothing changes and the fresh segment is
dropped; otherwise the segment is installed and the handle moves onto it. -/
def grow (s : ChainState) : ChainState :=
  if s.pos < s.caps.length then { s with pos := s.pos + 1 }
  else if s.closedTail then s
  else { s with caps := s.caps ++ [growAlloc s], pos := s.pos + 1 }

/-- The chain state produced by `pair()` (src/queue/chain.rs lines 38-62):
a single buffer-less head node with an `Empty` successor slot. -/
def chainStart : ChainState := ⟨[], false, 0⟩

/-! ## Helper lemmas -/

theorem usizeCmp_eq_lt_iff (a b : Nat) : usizeCmp a b = .lt ↔ a < b := by
  unfold usizeCmp
  split
  · simp_all
  · split <;> simp_all <;> omega

theorem msb_not_pp_and_nn (a : Nat) : ¬ (msbPP a = true ∧ msbNN a = true) := by
  rintro ⟨h1, h2⟩
  simp only [msbPP, msbNN, beq_iff_eq] at h1 h2
  have hcontra : MSB = 0 := h1.symm.trans h2
  exact absurd hcontra (by decide)

theorem isPowerOfTwoRust_iff (n : Nat) :
    isPowerOfTwoRust n = true ↔ ∃ k, k < 64 ∧ n = 2 ^ k := by
  unfold isPowerOfTwoRust
  simp only [List.any_eq_true, List.mem_range, beq_iff_eq]

/-! ## Theorems for the claims -/

/-- C2. The claim asserts `(c + n) − c = n` and `(c + n) > c` for the operators
of src/counter/mod.rs.  The code diverges: `Sub` (lines 109-121) subtracts the
raw shifted representations without rescaling, so `(Counter::new(0) + 1) −
Counter::new(0)` evaluates to `2`, not `1`; and because line 47 computes `WORD`
as `size_of::<usize>()` (bytes, i.e. 8) instead of the bit width, the mask
`MSB = 0xC0` makes `Counter::new(0) + 96` compare *less than* `Counter::new(0)`
even though `96` is far below the stated bound `2^(W-3)/2`.  The sibling
revision src/counter/counter.rs (lines 106-119, 42-43) rescales and uses the
bit width, and under it both parts of the claim hold at the same inputs, which
together with the module documentation (the two *most significant* bits are
reserved) shows the spec is the intent and mod.rs the slip. -/
theorem counter_modrs_sub_add_bug_eval :
    counterSubModrs (counterAdd (counterNew 0) 1) (counterNew 0) = 2 ∧
    counterCmpModrs (counterAdd (counterNew 0) 96) (counterNew 0) = .lt ∧
    counterSub (counterAdd (counterNew 0) 1) (counterNew 0) = 1 ∧
    counterCmp (counterAdd (counterNew 0) 96) (counterNew 0) = .gt := by
  refine ⟨?_, ?_, ?_, ?_⟩ <;> decide

/-- C3, counterexample. With `a = Counter(0)` (top-two-bit pattern `00`) and
`b = Counter(2^62)` (pattern `01`), the code's comparison says `a < b` (raw
comparison in the fall-through branch), but the claim's characterisation —
same pattern with smaller raw, or the `11`-vs-`00` wrap pair — covers neither
side of this pair, so the claimed "iff" fails. -/
theorem counter_cmp_spec_order_cex :
    counterCmp 0 (2 ^ 62) = .lt ∧ ¬ counterLtAsSpecified 0 (2 ^ 62) := by
  constructor
  · decide
  · unfold counterLtAsSpecified
    decide

/-- C3, amended. For non-closed counters `a`, `b` (LSB clear): `a < b` iff
either `a` has top-two-bit pattern `11` and `b` pattern `00` (the one-wrap
case, where `11` is considered less than `00`), or the pair is in neither
wrap case (not `a`:`00` against `b`:`11` and not `a`:`11` against `b`:`00`)
and the raw representation of `a` is smaller — which in particular covers
all pairs sharing the same top-two-bit pattern.  Moreover every counter
with pattern `00` compares greater than every counter with pattern `11`. -/
theorem counter_cmp_characterization (a b : Nat) (ha : a % 2 = 0) (hb : b % 2 = 0) :
    (counterCmp a b = .lt ↔
      ((msbPP a = true ∧ msbNN b = true) ∨
       (¬ (msbNN a = true ∧ msbPP b = true) ∧ ¬ (msbPP a = true ∧ msbNN b = true) ∧ a < b))) ∧
    (msbNN a = true → msbPP b = true → counterCmp a b = .gt) := by
  constructor
  · unfold counterCmp
    cases hA : msbNN a <;> cases hA' : msbPP a <;> cases hB : msbNN b <;> cases hB' : msbPP b <;>
      simp_all [usizeCmp_eq_lt_iff] <;>
      first
        | exact absurd ⟨hA', hA⟩ (msb_not_pp_and_nn a)
        | exact absurd ⟨hB', hB⟩ (msb_not_pp_and_nn b)
  · intro h1 h2
    unfold counterCmp
    simp [h1, h2]

/-- Witness for `counter_cmp_characterization`: a counter with pattern `11`
compares less than one with pattern `00`. -/
theorem counter_cmp_characterization_witness : counterCmp MSB 0 = .lt :=
  (counter_cmp_characterization MSB 0 (by decide) (by decide)).1.mpr
    (Or.inl ⟨by decide, by decide⟩)

/-- C4, counterexample. The claim says every capacity at or above
`2^(W-3)/2 = 2^60` panics, but `capacity = 2^60` (a power of two at the claimed
bound) passes both constructors' assertions: `Buffer::new` only requires
`capacity << 2 != 0` (so even `2^61` passes) and `RingBuf::new` has no upper
bound at all (even `2^63` passes). -/
theorem capacity_bound_cex :
    bufferNewAccepts (2 ^ 60) = true ∧ bufferNewAccepts (2 ^ 61) = true ∧
    ringBufNewAccepts (2 ^ 60) = true ∧ ringBufNewAccepts (2 ^ 63) = true ∧
    2 ^ (WORD - 3) / 2 ≤ 2 ^ 60 := by
  refine ⟨?_, ?_, ?_, ?_, ?_⟩ <;> decide

/-- C4, amended. `Buffer::new` accepts a capacity iff it is a positive power
of two whose quadruple does not wrap to zero modulo `2^64`, i.e. iff it is
`2^k` with `k < 62`; `RingBuf::new` accepts a capacity iff it is a positive
power of two, with no upper bound (any `2^k`, `k < 64`, for a machine word).
Every other capacity panics. -/
theorem capacity_validation (c : Nat) :
    (bufferNewAccepts c = true ↔ ∃ k, k < 62 ∧ c = 2 ^ k) ∧
    (ringBufNewAccepts c = true ↔ ∃ k, k < 64 ∧ c = 2 ^ k) := by
  have hshift : ∀ k : Nat, (2 : Nat) ^ k <<< 2 = 2 ^ (k + 2) := by
    intro k
    rw [Nat.shiftLeft_eq, ← pow_add]
  constructor
  · unfold bufferNewAccepts
    rw [Bool.and_eq_true, isPowerOfTwoRust_iff]
    simp only [bne_iff_ne, ne_eq]
    constructor
    · rintro ⟨⟨k, hk, rfl⟩, hne⟩
      refine ⟨k, ?_, rfl⟩
      by_contra hge
      apply hne
      rw [hshift k]
      show 2 ^ (k + 2) % USIZE = 0
      unfold USIZE
      exact Nat.mod_eq_zero_of_dvd (pow_dvd_pow 2 (by omega))
    · rintro ⟨k, hk, rfl⟩
      refine ⟨⟨k, by omega, rfl⟩, ?_⟩
      rw [hshift k]
      show ¬ 2 ^ (k + 2) % USIZE = 0
      unfold USIZE
      rw [Nat.mod_eq_of_lt (Nat.pow_lt_pow_right (by omega) (by omega))]
      positivity
  · unfold ringBufNewAccepts
    exact isPowerOfTwoRust_iff c

/-- Witness for `capacity_validation`: capacity 4 is accepted by both
constructors. -/
theorem capacity_validation_witness :
    bufferNewAccepts 4 = true ∧ ringBufNewAccepts 4 = true :=
  ⟨(capacity_validation 4).1.mpr ⟨2, by omega, rfl⟩,
   (capacity_validation 4).2.mpr ⟨2, by omega, rfl⟩⟩

/-- C9. `is_closed` is sticky on both endpoint types: whenever a call returns
`true` the per-endpoint cached flag is left `true`, so every later call on the
same endpoint returns `true` regardless of the head flag; and the cached flag,
once `true`, is never cleared by `is_closed`. -/
theorem is_closed_sticky :
    ∀ cache headClosed : Bool,
      ((senderIsClosed cache headClosed).1 = true →
        (senderIsClosed cache headClosed).2 = true ∧
        ∀ head2 : Bool, (senderIsClosed (senderIsClosed cache headClosed).2 head2).1 = true) ∧
      (cache = true → (senderIsClosed cache headClosed).2 = true) ∧
      ((receiverIsClosed cache headClosed).1 = true →
        (receiverIsClosed cache headClosed).2 = true ∧
        ∀ head2 : Bool, (receiverIsClosed (receiverIsClosed cache headClosed).2 head2).1 = true) ∧
      (cache = true → (receiverIsClosed cache headClosed).2 = true) := by
  decide

/-- Witness for `is_closed_sticky`: after observing closed once with a cold
cache, the next call reports closed even though the head flag reads `false`. -/
theorem is_closed_sticky_witness :
    (senderIsClosed (senderIsClosed false true).2 false).1 = true :=
  ((is_closed_sticky false true).1 (by decide)).2 false

/-- When the claimed counter is still at or above the refreshed limit and the
`claimed` store holds `k + 1`, the revert succeeds: the store is restored to
`k` and the claim returns `None`. -/
theorem sharedClaimLoopStep_revert (k cacheLimit limitVal : Nat)
    (hge : counterGe k (refreshedLimit k cacheLimit limitVal) = true) :
    sharedClaimLoopStep k cacheLimit limitVal (counterAddOne k) =
      .ret none k (refreshedLimit k cacheLimit limitVal) := by
  unfold sharedClaimLoopStep atomicCompSwap
  simp [hge]

/-- When the claimed counter is still at or above the refreshed limit but the
`claimed` store has moved away from `k + 1`, the revert fails, the store is
untouched and the loop is retried. -/
theorem sharedClaimLoopStep_retryOnMove (k cacheLimit limitVal store : Nat)
    (hge : counterGe k (refreshedLimit k cacheLimit limitVal) = true)
    (hne : store ≠ counterAddOne k) :
    sharedClaimLoopStep k cacheLimit limitVal store =
      .again store (refreshedLimit k cacheLimit limitVal) := by
  unfold sharedClaimLoopStep atomicCompSwap
  simp [hge, hne]

/-- When the claimed counter is below the refreshed limit, the claim succeeds
with `Some k` and the store is untouched. -/
theorem sharedClaimLoopStep_success (k cacheLimit limitVal store : Nat)
    (hlt : counterGe k (refreshedLimit k cacheLimit limitVal) = false) :
    sharedClaimLoopStep k cacheLimit limitVal store =
      .ret (some k) store (refreshedLimit k cacheLimit limitVal) := by
  unfold sharedClaimLoopStep
  simp [hlt]

/-- A commit spin iteration of counter `k` succeeds exactly when the `count`
store equals `k`, and then the store becomes `k + 1`. -/
theorem sharedCommitLoopStep_ok_iff (k store store2 : Nat) :
    sharedCommitLoopStep k store = .ok store2 ↔ store = k ∧ store2 = counterAddOne k := by
  unfold sharedCommitLoopStep atomicCompSwap
  by_cases h : store = k
  · subst h
    simp
    exact eq_comm
  · simp only [if_neg h]
    cases hm : makeCounter store <;> simp [h]

/-- `Owned::claim` succeeds when the cached count is strictly below the fresh
limit (no-wrap regime: the cached values form a `count ≤ cache.limit ≤ limit`
sandwich), returning the cached count and advancing the cache by one. -/
theorem ownedClaim_some (cacheCount cacheLimit limitVal : Nat)
    (h1 : cacheCount ≤ cacheLimit) (h2 : cacheLimit ≤ limitVal)
    (hlt : cacheCount < limitVal) :
    ∃ cacheLimit1, ownedClaim cacheCount cacheLimit limitVal =
      (some cacheCount, counterAddOne cacheCount, cacheLimit1) := by
  unfold ownedClaim
  by_cases hc : cacheCount = cacheLimit
  · exact ⟨limitVal, by simp [hc, show ¬ cacheLimit = limitVal by omega]⟩
  · exact ⟨cacheLimit, by simp [hc]⟩

/-- `Owned::claim` fails with `None` when the cached count has caught up with
the fresh limit. -/
theorem ownedClaim_none (cacheCount cacheLimit limitVal : Nat)
    (h1 : cacheCount ≤ cacheLimit) (h2 : cacheLimit ≤ limitVal)
    (heq : cacheCount = limitVal) :
    ownedClaim cacheCount cacheLimit limitVal = (none, cacheCount, limitVal) := by
  have hc : cacheCount = cacheLimit := by omega
  unfold ownedClaim
  simp [hc, show cacheLimit = limitVal by omega]

/-- In an interference-free run the revert compare-and-swap of `Shared::claim`
cannot fail: right after `claimed.incr()` returned `k` the store holds `k + 1`,
which is exactly the expected value, so the loop body never yields `again`. -/
theorem shared_claim_loop_no_retry (k cacheLimit limitVal store2 limit2 : Nat) :
    sharedClaimLoopStep k cacheLimit limitVal (counterAddOne k) ≠ .again store2 limit2 := by
  unfold sharedClaimLoopStep atomicCompSwap
  by_cases hge : counterGe k (refreshedLimit k cacheLimit limitVal) = true <;> simp [hge]

/-- C1. The `Shared` sequence protocol, at the granularity of one iteration of
each retry loop (src/sequence/shared.rs lines 40-61 and 64-72):
(a) when the claimed counter `k` is still at or above the refreshed cached
limit, the code tries to compare-and-swap `claimed` from `k + 1` back to `k`;
if the store indeed holds `k + 1` the revert succeeds, `claimed` is restored
to `k` and the claim returns `None` (exhaustion); if the store moved, the
revert fails, the store is untouched and the limit-check loop is retried;
(b) when `k` is below the refreshed limit the claim returns `Some k`;
(c) a commit of counter `k` succeeds exactly when the published `count` equals
`k`, and then advances it to `k + 1` — so successive successful commits carry
consecutive counters: publication happens in claim order with no holes. -/
theorem shared_claim_commit_protocol :
    (∀ k cacheLimit limitVal store : Nat,
      counterGe k (refreshedLimit k cacheLimit limitVal) = true →
      ((store = counterAddOne k →
         sharedClaimLoopStep k cacheLimit limitVal store =
           .ret none k (refreshedLimit k cacheLimit limitVal)) ∧
       (store ≠ counterAddOne k →
         sharedClaimLoopStep k cacheLimit limitVal store =
           .again store (refreshedLimit k cacheLimit limitVal)))) ∧
    (∀ k cacheLimit limitVal store : Nat,
      counterGe k (refreshedLimit k cacheLimit limitVal) = false →
      sharedClaimLoopStep k cacheLimit limitVal store =
        .ret (some k) store (refreshedLimit k cacheLimit limitVal)) ∧
    (∀ k store store2 : Nat,
      sharedCommitLoopStep k store = .ok store2 ↔ store = k ∧ store2 = counterAddOne k) := by
  refine ⟨?_, ?_, ?_⟩
  · intro k cacheLimit limitVal store hge
    constructor
    · intro heq
      subst heq
      exact sharedClaimLoopStep_revert k cacheLimit limitVal hge
    · intro hne
      exact sharedClaimLoopStep_retryOnMove k cacheLimit limitVal store hge hne
  · intro k cacheLimit limitVal store hlt
    exact sharedClaimLoopStep_success k cacheLimit limitVal store hlt
  · intro k store store2
    exact sharedCommitLoopStep_ok_iff k store store2

/-- Witness for `shared_claim_commit_protocol`: with counter 4 claimed, limit 4
and an unmoved store, the revert succeeds and returns `None`; and a commit of
counter 4 against a published count of 4 succeeds. -/
theorem shared_claim_commit_protocol_witness :
    sharedClaimLoopStep 4 4 4 (counterAddOne 4) = .ret none 4 (refreshedLimit 4 4 4) ∧
    sharedCommitLoopStep 4 4 = .ok (counterAddOne 4) :=
  ⟨(shared_claim_commit_protocol.1 4 4 4 (counterAddOne 4) (by decide)).1 rfl,
   (shared_claim_commit_protocol.2.2 4 4 (counterAddOne 4)).mpr ⟨rfl, rfl⟩⟩

/-- C5. For a coherent receiver state (the cached count mirrors the receiver
count, and the cached limit lies between it and the sender count — all raw
counters in the no-wrap regime): `try_recv` returns `Ok(Some(msg))`, the
message in the slot of the receiver count, exactly when a published message
exists (`recvCount < sendCount`) — in particular even when the channel is
already closed, so buffered messages are drained before `Ok(None)`; when no
message is claimable it returns `Ok(None)` if `is_closed()` observes the
closed channel and `Err(Empty)` otherwise. -/
theorem try_recv_characterization {T : Type} (s : SpscState T)
    (hcc : s.recvCacheCount = s.recvCount)
    (h1 : s.recvCount ≤ s.recvCacheLimit)
    (h2 : s.recvCacheLimit ≤ s.sendCount) :
    (s.recvCount < s.sendCount →
      (tryRecv s).1 = .ok (some (s.buf (slotIndex s.recvCount s.capacity)))) ∧
    (s.recvCount = s.sendCount →
      (receiverIsClosed s.recvClosedCache s.headClosed).1 = true →
      (tryRecv s).1 = .ok none) ∧
    (s.recvCount = s.sendCount →
      (receiverIsClosed s.recvClosedCache s.headClosed).1 = false →
      (tryRecv s).1 = .error .empty) := by
  refine ⟨?_, ?_, ?_⟩
  · intro hlt
    obtain ⟨cl1, hclaim⟩ := ownedClaim_some s.recvCacheCount s.recvCacheLimit s.sendCount
      (by omega) h2 (by omega)
    rw [hcc] at hclaim
    simp [tryRecv, hcc, hclaim]
  · intro heq hclosed
    have hclaim := ownedClaim_none s.recvCacheCount s.recvCacheLimit s.sendCount
      (by omega) h2 (by omega)
    simp [tryRecv, hclaim, hclosed]
  · intro heq hclosed
    have hclaim := ownedClaim_none s.recvCacheCount s.recvCacheLimit s.sendCount
      (by omega) h2 (by omega)
    simp [tryRecv, hclaim, hclosed]

/-- Witness for `try_recv_characterization`: one published message in a
capacity-one channel is received. -/
theorem try_recv_characterization_witness :
    (tryRecv (T := Nat) ⟨2, 0, 0, 0, 1, false, false, fun _ => 7⟩).1 = .ok (some 7) := by
  have h := (try_recv_characterization (T := Nat) ⟨2, 0, 0, 0, 1, false, false, fun _ => 7⟩
      rfl (by decide) (by decide)).1 (by decide)
  simpa using h

/-- C6. Failed sends return the caller's message and do not touch the shared
channel state.  For both the `Owned` and the `Shared` sender sequence: if
`try_send` fails — with `ReceiverAllClosed` or `BufferFull` — the error
payload is exactly the message passed in, and the sequence counters
(`count`, and `claimed` for `Shared`, whose increment is reverted by the
failed claim), the opposite side's counter and the buffer slots are left as
they were (only endpoint-local caches may change).  The `claimed` counter is
assumed non-closed (even), which the channel code maintains: it closes
channels through the head flag, never through the counters. -/
theorem try_send_failure_frame {T : Type} (sO : SpscSendState T) (sS : MpscSendState T)
    (msg : T) (hcl : sS.claimed % 2 = 0) :
    (∀ e : SendError T, (trySendOwned sO msg).1 = .error e →
      e.payload = msg ∧
      (trySendOwned sO msg).2.sendCount = sO.sendCount ∧
      (trySendOwned sO msg).2.recvCount = sO.recvCount ∧
      (trySendOwned sO msg).2.buf = sO.buf) ∧
    (∀ e : SendError T, (trySendShared sS msg).1 = .error e →
      e.payload = msg ∧
      (trySendShared sS msg).2.claimed = sS.claimed ∧
      (trySendShared sS msg).2.sendCount = sS.sendCount ∧
      (trySendShared sS msg).2.recvCount = sS.recvCount ∧
      (trySendShared sS msg).2.buf = sS.buf) := by
  constructor
  · intro e he
    by_cases hclosed : (senderIsClosed sO.sendClosedCache sO.headClosed).1 = true
    · simp [trySendOwned, hclosed] at he ⊢
      simp [← he]
    · simp only [trySendOwned, Bool.not_eq_true] at hclosed
      rcases hclaim : ownedClaim sO.sendCacheCount sO.sendCacheLimit
          (counterAdd sO.recvCount sO.capacity) with ⟨res, cc1, cl1⟩
      cases res with
      | none =>
        simp [trySendOwned, hclosed, hclaim] at he ⊢
        simp [← he]
      | some k =>
        simp [trySendOwned, hclosed, hclaim] at he
  · intro e he
    by_cases hclosed : (senderIsClosed sS.sendClosedCache sS.headClosed).1 = true
    · simp [trySendShared, hclosed] at he ⊢
      simp [← he]
    · simp only [trySendShared, Bool.not_eq_true] at hclosed
      have hincr : atomicIncr sS.claimed = (some sS.claimed, (sS.claimed + 2) % USIZE) := by
        simp [atomicIncr, makeCounter, hcl]
      by_cases hge : counterGe sS.claimed
          (refreshedLimit sS.claimed sS.sendCacheLimit (counterAdd sS.recvCount sS.capacity)) = true
      · have hstep := sharedClaimLoopStep_revert sS.claimed sS.sendCacheLimit
            (counterAdd sS.recvCount sS.capacity) hge
        simp [trySendShared, hclosed, sharedClaimSeq, hincr, counterAddOne] at he ⊢
        rw [show ((sS.claimed + 2) % USIZE) = counterAddOne sS.claimed from rfl, hstep] at he ⊢
        simp at he ⊢
        simp [← he]
      · have hstep := sharedClaimLoopStep_success sS.claimed sS.sendCacheLimit
            (counterAdd sS.recvCount sS.capacity) ((sS.claimed + 2) % USIZE)
            (by simpa using hge)
        simp [trySendShared, hclosed, sharedClaimSeq, hincr, hstep] at he

/-- Witness for `try_send_failure_frame`: sending into a closed channel fails
with the message as payload and an unchanged `claimed` counter. -/
theorem try_send_failure_frame_witness :
    (SendError.mk SendErrorKind.receiverAllClosed (5 : Nat)).payload = 5 ∧
    (trySendShared (T := Nat) ⟨0, 0, 0, 0, 1, true, false, fun _ => 0⟩ 5).2.claimed = 0 := by
  have h := (try_send_failure_frame (T := Nat) ⟨0, 0, 0, 0, 1, true, false, fun _ => 0⟩
      ⟨0, 0, 0, 0, 1, true, false, fun _ => 0⟩ 5 rfl).2
      (SendError.mk SendErrorKind.receiverAllClosed 5) rfl
  exact ⟨h.1, h.2.1⟩

/-- A node named by `getLast?` is a member of the list. -/
theorem mem_of_getLast?_eq {q : List Role} {t : Role} (h : q.getLast? = some t) :
    t ∈ q := by
  obtain ⟨hne, heq⟩ := List.mem_getLast?_eq_getLast (l := q) (x := t) h
  rw [heq]
  exact List.getLast_mem hne

/-- C7. The waiter queue is role-homogeneous: a push of role `r` fails and
hands the node back whenever the queue is non-empty and its tail node's role
differs from `r`; a pop of role `r` returns `None` and leaves the queue
unchanged whenever the first real node's role is not `r`; and consequently in
every state reachable from the empty queue by pushes and pops, all
non-sentinel nodes carry one single role. -/
theorem waiter_queue_role_homogeneous :
    (∀ (q : List Role) (r tailRole : Role),
      q.getLast? = some tailRole → tailRole ≠ r → queuePush q r = .error r) ∧
    (∀ (x : Role) (xs : List Role) (r : Role),
      x ≠ r → queuePop (x :: xs) r = (none, x :: xs)) ∧
    (∀ q : List Role, QueueReach q → homogeneous q) := by
  refine ⟨?_, ?_, ?_⟩
  · intro q r tailRole hlast hne
    unfold queuePush
    rw [hlast]
    simp [hne]
  · intro x xs r hne
    unfold queuePop
    simp [hne]
  · intro q hq
    induction hq with
    | empty =>
      intro a ha
      simp at ha
    | push q r q1 hq hpush ih =>
      unfold queuePush at hpush
      cases hlast : q.getLast? with
      | none =>
        rw [hlast] at hpush
        have hnil : q = [] := List.getLast?_eq_none_iff.mp hlast
        simp only [Except.ok.injEq] at hpush
        subst hpush
        subst hnil
        intro a ha b hb
        simp at ha hb
        rw [ha, hb]
      | some t =>
        rw [hlast] at hpush
        by_cases ht : t = r
        · subst ht
          simp at hpush
          subst hpush
          have htq : t ∈ q := mem_of_getLast?_eq hlast
          intro a ha b hb
          simp only [List.mem_append, List.mem_singleton] at ha hb
          have key : ∀ c : Role, c ∈ q ∨ c = t → c = t := by
            rintro c (hc | hc)
            · exact ih c hc t htq
            · exact hc
          rw [key a ha, key b hb]
        · simp [ht] at hpush
    | pop q r hq ih =>
      unfold queuePop
      cases q with
      | nil =>
        intro a ha
        simp at ha
      | cons x xs =>
        by_cases hx : x = r
        · subst hx
          simp only [if_pos rfl]
          intro a ha b hb
          exact ih a (List.mem_cons_of_mem x ha) b (List.mem_cons_of_mem x hb)
        · simp only [if_neg hx]
          exact ih

/-- Witness for `waiter_queue_role_homogeneous`: pushing a receiver node onto
a queue holding a sender node fails and hands the node back. -/
theorem waiter_queue_role_homogeneous_witness :
    queuePush [Role.sender] Role.receiver = .error Role.receiver :=
  waiter_queue_role_homogeneous.1 [Role.sender] Role.receiver Role.sender rfl (by decide)

/-- Entry `i` of the doubling capacity sequence. -/
theorem range_map_pow_getD (n i : Nat) (h : i < n) :
    ((List.range n).map fun j => 2 ^ j).getD i 0 = 2 ^ i := by
  rw [List.getD_eq_getElem?_getD, List.getElem?_map, List.getElem?_range h]
  rfl

/-- `grow` on a last, non-closed node appends the allocated segment and moves
the handle onto it (the `Empty → Holds(new)` branch of `AtomicArc::init`). -/
theorem grow_append (s : ChainState) (hpos : s.pos = s.caps.length)
    (hcl : s.closedTail = false) :
    grow s = { s with caps := s.caps ++ [growAlloc s], pos := s.pos + 1 } := by
  unfold grow
  simp [hpos, hcl]

/-- On the doubling chain with `n` segments, the next allocation has
capacity `2 ^ n`. -/
theorem growAlloc_doubling_chain (n : Nat) :
    growAlloc ⟨(List.range n).map fun i => 2 ^ i, false, n⟩ = 2 ^ n := by
  cases n with
  | zero => rfl
  | succ i =>
    show 2 * ((List.range (i + 1)).map fun j => 2 ^ j).getD i 0 = 2 ^ (i + 1)
    rw [range_map_pow_getD (i + 1) i (by omega)]
    rw [pow_succ, Nat.mul_comm]

/-- Iterating `grow` from the fresh chain produces exactly the segments of
capacities `2^0, 2^1, …`, with the handle on the last one. -/
theorem chain_grow_iterate (n : Nat) :
    grow^[n] chainStart = ⟨(List.range n).map fun i => 2 ^ i, false, n⟩ := by
  induction n with
  | zero => rfl
  | succ n ih =>
    rw [Function.iterate_succ_apply', ih]
    rw [grow_append ⟨(List.range n).map fun i => 2 ^ i, false, n⟩ (by simp) rfl]
    rw [List.range_succ, List.map_append]
    simp [growAlloc_doubling_chain n]

/-- C8. `Chain::grow` allocates a segment of exactly double the current
segment's capacity — or capacity 1 when the handle still sits on the
buffer-less head node; it installs the segment by compare-and-swapping the
successor slot from `Empty` to `Holds(new)` and moves onto it; when the race
is lost (the slot already holds a successor) it adopts the winner's segment
and appends nothing.  Hence growing from a fresh chain yields segment
capacities `1, 2, 4, 8, …`. -/
theorem chain_grow_doubling :
    (∀ s : ChainState, s.pos = 0 → growAlloc s = 1) ∧
    (∀ (s : ChainState) (i : Nat), s.pos = i + 1 → growAlloc s = 2 * s.caps.getD i 0) ∧
    (∀ s : ChainState, s.pos < s.caps.length → grow s = { s with pos := s.pos + 1 }) ∧
    (∀ s : ChainState, s.pos = s.caps.length → s.closedTail = false →
      grow s = { s with caps := s.caps ++ [growAlloc s], pos := s.pos + 1 }) ∧
    (∀ n : Nat, (grow^[n] chainStart).caps = (List.range n).map fun i => 2 ^ i) := by
  refine ⟨?_, ?_, ?_, ?_, ?_⟩
  · intro s h
    unfold growAlloc
    rw [h]
  · intro s i h
    unfold growAlloc
    rw [h]
  · intro s h
    unfold grow
    simp [h]
  · intro s h hclosed
    exact grow_append s h hclosed
  · intro n
    rw [chain_grow_iterate n]

/-- Witness for `chain_grow_doubling`: the first grow on a fresh chain
installs the capacity-1 segment. -/
theorem chain_grow_doubling_witness :
    grow chainStart =
      { chainStart with caps := chainStart.caps ++ [growAlloc chainStart], pos := chainStart.pos + 1 } :=
  chain_grow_doubling.2.2.2.1 chainStart rfl rfl

/-- C10. A `Closed` successor slot freezes `grow`: when the handle's current
node is the last one and its successor slot is `Closed`, `grow` is the
identity — the freshly allocated segment is discarded and the handle stays on
its segment; more generally, once the chain is closed no call to `grow` ever
appends a segment, and the chain stays closed. -/
theorem chain_grow_closed_frame :
    (∀ s : ChainState, s.pos = s.caps.length → s.closedTail = true → grow s = s) ∧
    (∀ s : ChainState, s.closedTail = true →
      (grow s).caps = s.caps ∧ (grow s).closedTail = true) := by
  constructor
  · intro s hpos hclosed
    unfold grow
    simp [hpos, hclosed]
  · intro s hclosed
    unfold grow
    by_cases h : s.pos < s.caps.length
    · simp [h, hclosed]
    · simp [h, hclosed]

/-- Witness for `chain_grow_closed_frame`: growing a closed fresh chain
changes nothing. -/
theorem chain_grow_closed_frame_witness :
    grow ⟨[], true, 0⟩ = ⟨[], true, 0⟩ :=
  chain_grow_closed_frame.1 ⟨[], true, 0⟩ rfl rfl

end Ringbuf
